import Mathlib

/-!
Shallow embedding of the whoopsync repository: the record merge engine
(`whoopsync/data/data_manager.py`), the credential store
(`whoopsync/data/auth_manager.py`), the token refresher and token client
(`whoopsync/api/token_refresher.py`, `whoopsync/api/token_client.py`) and the
retrying API request loop (`whoopsync/api/whoop_api.py`), together with
theorems settling the specification's claims about them.
-/

namespace Whoopsync

/-- Model of a Python `datetime` value: a wall-clock reading (in seconds)
together with an optional timezone offset (in seconds). `tzOffset = none`
models a timezone-naive datetime. -/
structure PyDateTime where
  wall : Int
  tzOffset : Option Int
deriving DecidableEq, Repr

/-- The UTC instant a datetime denotes, reading a naive value as UTC: this is
how Python compares two aware datetimes, and `getD 0` is exactly what
`replace(tzinfo=timezone.utc)` amounts to for a naive value. -/
def PyDateTime.instant (d : PyDateTime) : Int := d.wall - d.tzOffset.getD 0

/-- Lines 148-152 of `data_manager.py` (and the three analogous blocks): a
stored `updated_at` that is timezone-naive is tagged as UTC
(`replace(tzinfo=timezone.utc)`) before being compared. -/
def normalizeStored (d : PyDateTime) : PyDateTime :=
  match d.tzOffset with
  | none => { d with tzOffset := some 0 }
  | some _ => d

@[simp] theorem instant_normalizeStored (d : PyDateTime) :
    (normalizeStored d).instant = d.instant := by
  cases h : d.tzOffset <;> simp [normalizeStored, PyDateTime.instant, h]

/-! ## The cycles table and `DataManager.store_cycles`

`models.py:33-59` declares the `cycles` table; the surrogate integer primary
key is not modeled, and the numeric score columns (SQL `Float`/`Integer`) are
carried over `Int` since the merge engine only stores and copies them. The
SQLAlchemy column name `end` is a Lean keyword and is rendered `end_time`. -/

/-- A row of the `cycles` table. -/
structure Cycle where
  cycle_id : Int
  user_id : String
  created_at : PyDateTime
  updated_at : PyDateTime
  start : PyDateTime
  end_time : Option PyDateTime
  timezone_offset : Option String
  score_state : Option String
  strain : Option Int
  kilojoule : Option Int
  average_heart_rate : Option Int
  max_heart_rate : Option Int
  raw_data : String
deriving DecidableEq, Repr

/-- The `score` sub-object of an incoming API cycle record
(`cycle_data.get("score", ...)`). -/
structure CycleScore where
  strain : Option Int
  kilojoule : Option Int
  average_heart_rate : Option Int
  max_heart_rate : Option Int
deriving DecidableEq, Repr

/-- An incoming API cycle record after ISO-8601 parsing: the datetime fields
hold the values `datetime.fromisoformat` produces, and `raw` stands for the
serialized form `json.dumps(cycle_data)`. -/
structure CycleData where
  id : Int
  created_at : PyDateTime
  updated_at : PyDateTime
  start : PyDateTime
  end_time : Option PyDateTime
  timezone_offset : Option String
  score_state : Option String
  score : Option CycleScore
  raw : String
deriving DecidableEq, Repr

/-- The empty dict default of `cycle_data.get("score", ...)`: every
`score_data.get` then yields `None`. -/
def emptyCycleScore : CycleScore := ⟨none, none, none, none⟩

/-- `DataManager._create_cycle` (`data_manager.py:165-196`). -/
def create_cycle (user_id : String) (c : CycleData) : Cycle :=
  let score_data := c.score.getD emptyCycleScore
  { cycle_id := c.id
    user_id := user_id
    created_at := c.created_at
    updated_at := c.updated_at
    start := c.start
    end_time := c.end_time
    timezone_offset := c.timezone_offset
    score_state := c.score_state
    strain := score_data.strain
    kilojoule := score_data.kilojoule
    average_heart_rate := score_data.average_heart_rate
    max_heart_rate := score_data.max_heart_rate
    raw_data := c.raw }

/-- `DataManager._update_cycle` (`data_manager.py:198-219`): `cycle_id`,
`user_id`, `created_at`, `start` and `timezone_offset` are not touched. -/
def update_cycle (cy : Cycle) (c : CycleData) : Cycle :=
  let score_data := c.score.getD emptyCycleScore
  { cy with
    updated_at := c.updated_at
    end_time := c.end_time
    score_state := c.score_state
    strain := score_data.strain
    kilojoule := score_data.kilojoule
    average_heart_rate := score_data.average_heart_rate
    max_heart_rate := score_data.max_heart_rate
    raw_data := c.raw }

/-- One iteration of the loop in `DataManager.store_cycles`
(`data_manager.py:136-160`), acting on the pair (stored_count, table). The
incoming `updated_at` is aware after parsing, so Python's aware-vs-aware
`>` on datetimes is comparison of UTC instants. -/
def store_cycles_step (user_id : String) (acc : Nat × List Cycle) (c : CycleData) :
    Nat × List Cycle :=
  let (stored_count, db) := acc
  match db.find? (fun cy => cy.cycle_id == c.id) with
  | some existing_cycle =>
    if c.updated_at.instant > (normalizeStored existing_cycle.updated_at).instant then
      (stored_count + 1,
       db.map (fun cy => if cy.cycle_id == c.id then update_cycle cy c else cy))
    else
      (stored_count, db)
  | none => (stored_count + 1, db ++ [create_cycle user_id c])

/-- `DataManager.store_cycles` (`data_manager.py:121-163`): fold the loop body
over the batch, starting from `stored_count = 0`. -/
def store_cycles (db : List Cycle) (user_id : String) (cycles_data : List CycleData) :
    Nat × List Cycle :=
  cycles_data.foldl (store_cycles_step user_id) (0, db)

/-- The `cycles.cycle_id` column is declared `unique` (`models.py:39`); a
well-formed table has pairwise distinct keys. -/
def CycleKeysUnique (db : List Cycle) : Prop :=
  db.Pairwise (fun a b => a.cycle_id ≠ b.cycle_id)

/-! ## The recoveries table and `DataManager.store_recoveries`

Recoveries are keyed by the composite `(cycle_id, sleep_id)`
(`data_manager.py:489-492`). -/

/-- A row of the `recoveries` table (`models.py:143-170`). -/
structure Recovery where
  cycle_id : Int
  sleep_id : Int
  user_id : String
  created_at : PyDateTime
  updated_at : PyDateTime
  score_state : Option String
  user_calibrating : Option Bool
  recovery_score : Option Int
  resting_heart_rate : Option Int
  hrv_rmssd_milli : Option Int
  spo2_percentage : Option Int
  skin_temp_celsius : Option Int
  raw_data : String
deriving DecidableEq, Repr

/-- The `score` sub-object of an incoming API recovery record. -/
structure RecoveryScore where
  user_calibrating : Option Bool
  recovery_score : Option Int
  resting_heart_rate : Option Int
  hrv_rmssd_milli : Option Int
  spo2_percentage : Option Int
  skin_temp_celsius : Option Int
deriving DecidableEq, Repr

/-- An incoming API recovery record after ISO-8601 parsing. -/
structure RecoveryData where
  cycle_id : Int
  sleep_id : Int
  created_at : PyDateTime
  updated_at : PyDateTime
  score_state : Option String
  score : Option RecoveryScore
  raw : String
deriving DecidableEq, Repr

/-- The empty dict default of `recovery_data.get("score", ...)`. -/
def emptyRecoveryScore : RecoveryScore := ⟨none, none, none, none, none, none⟩

/-- `DataManager._create_recovery` (`data_manager.py:515-546`). -/
def create_recovery (user_id : String) (r : RecoveryData) : Recovery :=
  let score_data := r.score.getD emptyRecoveryScore
  { cycle_id := r.cycle_id
    sleep_id := r.sleep_id
    user_id := user_id
    created_at := r.created_at
    updated_at := r.updated_at
    score_state := r.score_state
    user_calibrating := score_data.user_calibrating
    recovery_score := score_data.recovery_score
    resting_heart_rate := score_data.resting_heart_rate
    hrv_rmssd_milli := score_data.hrv_rmssd_milli
    spo2_percentage := score_data.spo2_percentage
    skin_temp_celsius := score_data.skin_temp_celsius
    raw_data := r.raw }

/-- `DataManager._update_recovery` (`data_manager.py:548-570`): the keys,
`user_id` and `created_at` are not touched. -/
def update_recovery (rec : Recovery) (r : RecoveryData) : Recovery :=
  let score_data := r.score.getD emptyRecoveryScore
  { rec with
    updated_at := r.updated_at
    score_state := r.score_state
    user_calibrating := score_data.user_calibrating
    recovery_score := score_data.recovery_score
    resting_heart_rate := score_data.resting_heart_rate
    hrv_rmssd_milli := score_data.hrv_rmssd_milli
    spo2_percentage := score_data.spo2_percentage
    skin_temp_celsius := score_data.skin_temp_celsius
    raw_data := r.raw }

/-- One iteration of the loop in `DataManager.store_recoveries`
(`data_manager.py:484-510`). -/
def store_recoveries_step (user_id : String) (acc : Nat × List Recovery)
    (r : RecoveryData) : Nat × List Recovery :=
  let (stored_count, db) := acc
  match db.find? (fun rec => rec.cycle_id == r.cycle_id && rec.sleep_id == r.sleep_id) with
  | some existing_recovery =>
    if r.updated_at.instant > (normalizeStored existing_recovery.updated_at).instant then
      (stored_count + 1,
       db.map (fun rec =>
         if rec.cycle_id == r.cycle_id && rec.sleep_id == r.sleep_id
         then update_recovery rec r else rec))
    else
      (stored_count, db)
  | none => (stored_count + 1, db ++ [create_recovery user_id r])

/-- `DataManager.store_recoveries` (`data_manager.py:469-513`). -/
def store_recoveries (db : List Recovery) (user_id : String)
    (recoveries_data : List RecoveryData) : Nat × List Recovery :=
  recoveries_data.foldl (store_recoveries_step user_id) (0, db)

/-- A recovery row is identified by the composite key `(cycle_id, sleep_id)`;
a well-formed table has pairwise distinct composite keys. -/
def RecoveryKeysUnique (db : List Recovery) : Prop :=
  db.Pairwise (fun a b => a.cycle_id ≠ b.cycle_id ∨ a.sleep_id ≠ b.sleep_id)

/-! ## The credential store: `auth_manager.py`

Times (`expires_at`, `created_at`, `updated_at`, and the `now` argument
standing for `datetime.utcnow()`) are modeled as UTC instants in seconds; the
auth manager compares them uniformly, so the comparisons below are exactly
the source's datetime comparisons. -/

/-- A row of the `oauth_tokens` table (`auth_manager.py:19-33`); the surrogate
integer primary key is not modeled. -/
structure OAuthToken where
  user_id : String
  access_token : String
  refresh_token : String
  token_type : String
  expires_at : Int
  scopes : String
  created_at : Int
  updated_at : Int
  is_active : Bool
deriving DecidableEq, Repr

/-- `AuthManager.get_token` (`auth_manager.py:113-126`): first row for the
user that is active. -/
def get_token (db : List OAuthToken) (user_id : String) : Option OAuthToken :=
  db.find? (fun t => t.user_id == user_id && t.is_active)

/-- `AuthManager.store_token` (`auth_manager.py:60-111`). The `user_id`
column is unique (`auth_manager.py:25`), so mutating the first row found by
`user_id` is modeled as a map over the table. -/
def store_token (db : List OAuthToken) (now : Int) (user_id access_token
    refresh_token : String) (expires_in : Int) (token_type scopes : String) :
    List OAuthToken :=
  let expires_at := now + expires_in
  match db.find? (fun t => t.user_id == user_id) with
  | none =>
    db ++ [{ user_id := user_id
             access_token := access_token
             refresh_token := refresh_token
             token_type := token_type
             expires_at := expires_at
             scopes := scopes
             created_at := now
             updated_at := now
             is_active := true }]
  | some _ =>
    db.map (fun t =>
      if t.user_id == user_id then
        { t with
          access_token := access_token
          refresh_token := refresh_token
          token_type := token_type
          expires_at := expires_at
          scopes := scopes
          is_active := true
          updated_at := now }
      else t)

/-- `AuthManager.deactivate_token` (`auth_manager.py:162-179`): note the
lookup has no active filter. -/
def deactivate_token (db : List OAuthToken) (now : Int) (user_id : String) :
    Bool × List OAuthToken :=
  match db.find? (fun t => t.user_id == user_id) with
  | none => (false, db)
  | some _ =>
    (true,
     db.map (fun t =>
       if t.user_id == user_id then { t with is_active := false, updated_at := now }
       else t))

/-- `AuthManager.is_token_valid` (`auth_manager.py:181-200`):
`buffer_time = utcnow() + 5 minutes`; invalid when `expires_at <= buffer_time`
(non-strict), so valid means strictly later than the buffer. -/
def is_token_valid (db : List OAuthToken) (now : Int) (user_id : String) : Bool :=
  match get_token db user_id with
  | none => false
  | some token => if token.expires_at ≤ now + 5 * 60 then false else true

/-- A row of the `user_tokens` table used by `DataManager`. The `UserToken`
model class itself is absent from `models.py`; the fields are reconstructed
from its construction site in `DataManager.save_oauth_token`
(`data_manager.py:620-627`). It has no active flag. -/
structure UserToken where
  user_id : String
  access_token : String
  refresh_token : String
  expires_at : Int
  scope : String
  token_type : String
deriving DecidableEq, Repr

/-- `DataManager.is_token_valid` (`data_manager.py:645-666`): strict `<`
against `utcnow() + 5 minutes`, and no active-flag filter on the lookup. -/
def dm_is_token_valid (db : List UserToken) (now : Int) (user_id : String) :
    Bool × Option UserToken :=
  match db.find? (fun t => t.user_id == user_id) with
  | none => (false, none)
  | some token =>
    if token.expires_at < now + 5 * 60 then (false, some token)
    else (true, some token)

/-! ## Token refresh: `token_refresher.py` and `token_client.py` -/

/-- Body of a successful token-endpoint response; `scope` is read with
`token_data.get("scope", ...)`, so it may be absent. -/
structure TokenResponse where
  access_token : String
  refresh_token : String
  expires_in : Int
  token_type : String
  scope : Option String
deriving DecidableEq, Repr

/-- Outcome of `client.post(token_url, ...)` followed by `raise_for_status()`,
`json()` and the `token_data[...]` field accesses: a parsed body; an
`httpx.HTTPError` (network error, timeout, or any non-2xx token-endpoint
status via `raise_for_status`); a body that is not valid JSON, where
`response.json()` raises `json.JSONDecodeError` — a `ValueError` subclass,
not an `httpx.HTTPError`; or a JSON body missing a required field, where
`token_data["..."]` raises `KeyError` — also not an `httpx.HTTPError`. -/
inductive RefreshOutcome where
  | ok (body : TokenResponse)
  | httpError
  | malformedJson
  | missingField
deriving DecidableEq, Repr

/-- How one `TokenRefresher.refresh_token` call ends: with a returned `bool`,
or by propagating an exception that its `except httpx.HTTPError` clause does
not catch (`json.JSONDecodeError` or `KeyError` from a malformed body). -/
inductive TrOutcome where
  | returned (success : Bool)
  | raised
deriving DecidableEq, Repr

/-- `TokenRefresher.refresh_token` (`token_refresher.py:42-86`): on success
store the new token, falling back to the scopes of the token object that was
passed in when the response has no scope; on `httpx.HTTPError`, deactivate the
user's credential iff `utcnow() > token.expires_at`, else leave the table
alone, returning `False`. A malformed body raises `json.JSONDecodeError` or
`KeyError` inside the `try`, which `except httpx.HTTPError` does not catch:
the exception propagates before any database access, the table unchanged. -/
def tr_refresh_token (db : List OAuthToken) (now : Int) (token : OAuthToken)
    (outcome : RefreshOutcome) : TrOutcome × List OAuthToken :=
  match outcome with
  | .ok body =>
    (.returned true,
     store_token db now token.user_id body.access_token body.refresh_token
       body.expires_in body.token_type (body.scope.getD token.scopes))
  | .httpError =>
    if now > token.expires_at then
      (.returned false, (deactivate_token db now token.user_id).2)
    else
      (.returned false, db)
  | .malformedJson => (.raised, db)
  | .missingField => (.raised, db)

/-- The exception class a failed `TokenClient.refresh_token` call raises:
`httpx.HTTPError` from the POST or `raise_for_status()`;
`json.JSONDecodeError` (a `ValueError` subclass) from `response.json()`; or
`KeyError` from the `token_data[...]` accesses. -/
inductive RefreshError where
  | httpError
  | malformedJson
  | missingField
deriving DecidableEq, Repr

/-- `TokenClient.refresh_token` (`token_client.py:40-80`): it has no `try`, so
every failure propagates before any database access; on success the new token
is stored, the scope falling back to the scopes of the current active token,
or `""` when `get_token` returns nothing. -/
def tc_refresh_token (db : List OAuthToken) (now : Int) (user_id : String)
    (outcome : RefreshOutcome) : Except RefreshError TokenResponse × List OAuthToken :=
  match outcome with
  | .httpError => (.error .httpError, db)
  | .malformedJson => (.error .malformedJson, db)
  | .missingField => (.error .missingField, db)
  | .ok body =>
    let scopes :=
      match get_token db user_id with
      | some current_token => current_token.scopes
      | none => ""
    (.ok body,
     store_token db now user_id body.access_token body.refresh_token
       body.expires_in body.token_type (body.scope.getD scopes))

/-- How a `TokenClient.get_access_token` call fails: `noToken` and
`refreshFailed` are the `ValueError`s the source raises itself;
`malformedJson` and `missingField` are the malformed-body exceptions from
`refresh_token` that its `except httpx.HTTPError` clause lets through. -/
inductive AuthError where
  | noToken
  | refreshFailed
  | malformedJson
  | missingField
deriving DecidableEq, Repr

/-- `TokenClient.get_access_token` (`token_client.py:82-112`): return the
stored pair while `expires_at > utcnow()`; otherwise refresh; on
`httpx.HTTPError` deactivate the expired token and raise `ValueError`; a
malformed-body exception is not an `httpx.HTTPError`, so it propagates with
no deactivation and the table unchanged. -/
def tc_get_access_token (db : List OAuthToken) (now : Int) (user_id : String)
    (outcome : RefreshOutcome) : Except AuthError (String × String) × List OAuthToken :=
  match get_token db user_id with
  | none => (.error .noToken, db)
  | some token =>
    if token.expires_at > now then
      (.ok (token.access_token, token.token_type), db)
    else
      match tc_refresh_token db now user_id outcome with
      | (.ok body, db2) => (.ok (body.access_token, body.token_type), db2)
      | (.error .httpError, db2) =>
        (.error .refreshFailed, (deactivate_token db2 now user_id).2)
      | (.error .malformedJson, db2) => (.error .malformedJson, db2)
      | (.error .missingField, db2) => (.error .missingField, db2)

/-! ## Concurrent `get_access_token` calls

`get_access_token` is an `async` coroutine: it runs atomically from entry up
to the `await self.client.post(token_url, ...)` inside `refresh_token`, and
resumes after the remote exchange completes. The split below is exactly at
that suspension point. -/

/-- Where one `get_access_token` call stands after its first atomic segment. -/
inductive GatPhase where
  | failedNoToken
  | done (access_token token_type : String)
  | refreshing (token : OAuthToken)
deriving DecidableEq, Repr

/-- The first atomic segment of `TokenClient.get_access_token`: read the
credential, return it if still valid, otherwise issue the remote exchange and
suspend (`token_client.py:94-106` up to the POST in `refresh_token`). -/
def gat_phaseA (db : List OAuthToken) (now : Int) (user_id : String) : GatPhase :=
  match get_token db user_id with
  | none => .failedNoToken
  | some token =>
    if token.expires_at > now then .done token.access_token token.token_type
    else .refreshing token

/-- Number of remote token-endpoint exchanges a call has issued by the end of
its first atomic segment: one exactly when it reached the POST. -/
def issuesExchange : GatPhase → Nat
  | .refreshing _ => 1
  | _ => 0

/-- Two concurrent `get_access_token` calls for the same user under the
schedule A1-A2-B1-B2: each task runs its first atomic segment before either
remote exchange returns (a legal event-loop schedule, since both suspend at
the POST). The table is unchanged between the two reads. Returns how many
remote exchanges were issued. -/
def gat_two_calls_exchanges (db : List OAuthToken) (now : Int) (user_id : String) : Nat :=
  let p1 := gat_phaseA db now user_id
  let p2 := gat_phaseA db now user_id
  issuesExchange p1 + issuesExchange p2

/-! ## Resource requests

An outcome of one `self.client.request(...)` call: either a response with a
status code (plus the `Retry-After` header, read only in the 429 branch, and
an abstract `json()` body), or a transport-level `httpx.HTTPError` raised by
the call itself. -/

/-- One scripted HTTP response. -/
inductive HttpResp where
  | resp (code : Nat) (retryAfter : Option Nat) (body : Nat)
  | netErr
deriving DecidableEq, Repr

/-- `response.raise_for_status()` passes exactly on 2xx. -/
def is2xx (code : Nat) : Bool := 200 ≤ code && code ≤ 299

/-- Pop the next scripted response; an exhausted script is read as a
transport error (concrete runs always script enough responses). -/
def popResp : List HttpResp → HttpResp × List HttpResp
  | [] => (.netErr, [])
  | r :: rs => (r, rs)

/-! ### `TokenClient.request` (`token_client.py:114-192`) -/

deriving instance DecidableEq for Except

/-- How `TokenClient.request` can fail: with a `ValueError` (authentication
failure, raised by the source itself — also the class under which a
refresh's `json.JSONDecodeError` is caught and converted in the 401 branch),
with a propagated `httpx` error, or with a propagated malformed-body
exception (`json.JSONDecodeError` re-raised unchanged by the top-level
`except ValueError`, or `KeyError`, which no handler in `request` catches). -/
inductive TcError where
  | valueError
  | httpError
  | malformedJson
  | missingField
deriving DecidableEq, Repr

/-- Result of one `TokenClient.request` call: its outcome, the credential
table afterwards, and how many forced (401-triggered) refresh exchanges it
performed. -/
structure TcReqResult where
  result : Except TcError Nat
  db : List OAuthToken
  forcedRefreshes : Nat
deriving DecidableEq, Repr

/-- `TokenClient.request`: acquire a token via `get_access_token`, issue the
request, and on a 401 status (with `retry_on_auth_error`) refresh once and
retry the same request once; any failure inside that retry block is re-raised
as `ValueError`. A non-401 status error or a transport error propagates.
`gatOutcome` scripts the token exchange inside `get_access_token` (used only
if the stored credential is expired), `refreshOutcome` the forced exchange of
the 401 branch, and `resp1`/`resp2` the two possible resource calls. -/
def tc_request (db : List OAuthToken) (now : Int) (user_id : String)
    (retry_on_auth_error : Bool) (gatOutcome refreshOutcome : RefreshOutcome)
    (resp1 resp2 : HttpResp) : TcReqResult :=
  match tc_get_access_token db now user_id gatOutcome with
  -- the two ValueError cases are caught by `except ValueError` and re-raised
  | (.error .noToken, db1) => ⟨.error .valueError, db1, 0⟩
  | (.error .refreshFailed, db1) => ⟨.error .valueError, db1, 0⟩
  -- a JSONDecodeError is a ValueError: caught, logged, re-raised unchanged
  | (.error .malformedJson, db1) => ⟨.error .malformedJson, db1, 0⟩
  -- a KeyError matches no handler and propagates
  | (.error .missingField, db1) => ⟨.error .missingField, db1, 0⟩
  | (.ok _, db1) =>
    match resp1 with
    | .netErr => ⟨.error .httpError, db1, 0⟩
    | .resp code _ body =>
      if is2xx code then ⟨.ok body, db1, 0⟩
      else if code == 401 && retry_on_auth_error then
        match get_token db1 user_id with
        | none => ⟨.error .valueError, db1, 0⟩
        | some _ =>
          match tc_refresh_token db1 now user_id refreshOutcome with
          -- `except (httpx.HTTPError, ValueError)` catches the HTTP error
          -- and the JSONDecodeError (a ValueError) and raises ValueError
          | (.error .httpError, db2) => ⟨.error .valueError, db2, 1⟩
          | (.error .malformedJson, db2) => ⟨.error .valueError, db2, 1⟩
          -- a KeyError is neither and propagates out of the 401 branch
          | (.error .missingField, db2) => ⟨.error .missingField, db2, 1⟩
          | (.ok _, db2) =>
            match resp2 with
            | .netErr => ⟨.error .valueError, db2, 1⟩
            | .resp code2 _ body2 =>
              if is2xx code2 then ⟨.ok body2, db2, 1⟩
              else ⟨.error .valueError, db2, 1⟩
      else ⟨.error .httpError, db1, 0⟩

/-! ### `WhoopAPI._make_request` (`whoop_api.py:61-156`) -/

/-- Failure modes of `_make_request`: the no-token guard, a `WhoopAPIError`
raised from the 401 branch, a `WhoopAPIError` raised when the backoff budget
runs out inside the `except` handler, and the final `WhoopAPIError` after the
loop (reached when the last attempt ended in `continue`). -/
inductive ApiError where
  | noValidToken
  | authFailed
  | requestFailed
  | maxRetriesExceeded
deriving DecidableEq, Repr

/-- Result of one `_make_request` call: outcome, the successive `time.sleep`
durations, and the number of refresh exchanges made in the 401 branch. -/
structure MRResult where
  result : Except ApiError Nat
  sleeps : List Nat
  refreshes : Nat
deriving DecidableEq, Repr

/-- The `for attempt in range(self.max_retries)` loop of `_make_request`
(`whoop_api.py:96-156`); `remaining` counts the iterations left, so
`remaining = max_retries - attempt` throughout. `resps` scripts the
successive outcomes of `self.client.request`; `refreshScript` scripts
`token_manager.refresh_token` in the 401 branch (`true`: returns a fresh
token, `false`: raises or returns `None`, both surfacing as `WhoopAPIError`).
Sleeps are accumulated in reverse. -/
def mr_loop (max_retries retry_delay : Nat) (hasTokenManager : Bool) :
    Nat → Nat → List HttpResp → List Bool → List Nat → Nat → MRResult
  | 0, _, _, _, sleeps, refreshes =>
    -- the loop ran out of iterations without returning: `whoop_api.py:156`
    ⟨.error .maxRetriesExceeded, sleeps.reverse, refreshes⟩
  | remaining + 1, attempt, resps, refreshScript, sleeps, refreshes =>
    let backoff := fun (resps' : List HttpResp) (refreshScript' : List Bool)
        (refreshes' : Nat) =>
      if attempt < max_retries - 1 then
        mr_loop max_retries retry_delay hasTokenManager remaining (attempt + 1)
          resps' refreshScript' (retry_delay * 2 ^ attempt :: sleeps) refreshes'
      else
        ⟨.error .requestFailed, sleeps.reverse, refreshes'⟩
    match popResp resps with
    | (.netErr, rest) => backoff rest refreshScript refreshes
    | (.resp code retryAfter body, rest) =>
      if code == 429 then
        -- rate limited: sleep the Retry-After header, default retry_delay,
        -- and `continue` (which consumes this iteration of the loop)
        let retry_after := retryAfter.getD retry_delay
        mr_loop max_retries retry_delay hasTokenManager remaining (attempt + 1)
          rest refreshScript (retry_after :: sleeps) refreshes
      else if code == 401 then
        if hasTokenManager then
          match refreshScript with
          | false :: _ =>
            -- refresh raised, or returned None: `WhoopAPIError` propagates
            ⟨.error .authFailed, sleeps.reverse, refreshes + 1⟩
          | true :: refreshRest =>
            match popResp rest with
            | (.netErr, _) =>
              -- the retried request raised inside the `except Exception`
              -- block: wrapped in `WhoopAPIError` and propagated
              ⟨.error .authFailed, sleeps.reverse, refreshes + 1⟩
            | (.resp code2 _ body2, rest2) =>
              if is2xx code2 then
                -- `status_code == 200` returns directly; any other 2xx
                -- passes `raise_for_status()` and returns `response.json()`
                ⟨.ok body2, sleeps.reverse, refreshes + 1⟩
              else
                -- `raise_for_status()` on the retried response raises
                -- `httpx.HTTPStatusError`, caught by the backoff handler
                backoff rest2 refreshRest (refreshes + 1)
          | [] =>
            -- unscripted refresh: read as a refresh failure
            ⟨.error .authFailed, sleeps.reverse, refreshes + 1⟩
        else
          ⟨.error .authFailed, sleeps.reverse, refreshes⟩
      else if is2xx code then
        ⟨.ok body, sleeps.reverse, refreshes⟩
      else
        -- `raise_for_status()` raises, caught by the backoff handler
        backoff rest refreshScript refreshes

/-- `WhoopAPI._make_request`: fail fast without a token, else run the retry
loop from `attempt = 0`. -/
def make_request (max_retries retry_delay : Nat) (hasToken hasTokenManager : Bool)
    (resps : List HttpResp) (refreshScript : List Bool) : MRResult :=
  if hasToken then
    mr_loop max_retries retry_delay hasTokenManager max_retries 0 resps refreshScript [] 0
  else
    ⟨.error .noValidToken, [], 0⟩

/-! ## Helper lemmas about tables with a unique key column

A table whose rows have pairwise distinct keys has at most one row satisfying
a key predicate `p`; looking a row up with `find?` and rewriting it with a
guarded `map` then behave like splicing at that row's position. -/

section UniqueKey

variable {α : Type} {p : α → Bool}

theorem pred_false_of_pairwise {db : List α} {e x : α}
    (hu : db.Pairwise fun a b => ¬(p a = true ∧ p b = true))
    (he : e ∈ db) (hpe : p e = true) (hx : x ∈ db) (hpx : p x = true) : x = e := by
  induction db with
  | nil => cases he
  | cons y rest ih =>
    rcases List.pairwise_cons.mp hu with ⟨hy, hrest⟩
    rcases List.mem_cons.mp he with rfl | he' <;> rcases List.mem_cons.mp hx with rfl | hx'
    · rfl
    · exact absurd ⟨hpe, hpx⟩ (hy x hx')
    · exact absurd ⟨hpx, hpe⟩ (hy e he')
    · exact ih hrest he' hx'

theorem find?_append_of_none {l₁ l₂ : List α}
    (h : ∀ x ∈ l₁, p x = false) : (l₁ ++ l₂).find? p = l₂.find? p := by
  induction l₁ with
  | nil => rfl
  | cons x rest ih =>
    have hx : p x = false := h x (List.mem_cons_self x rest)
    simp only [List.cons_append, List.find?]
    rw [hx]
    exact ih fun y hy => h y (List.mem_cons_of_mem x hy)

theorem find?_splice {db : List α} {e : α}
    (hu : db.Pairwise fun a b => ¬(p a = true ∧ p b = true))
    (he : e ∈ db) (hpe : p e = true) :
    db.find? p = some e ∧
    ∃ l r, db = l ++ e :: r ∧ (∀ x ∈ l, p x = false) ∧ (∀ x ∈ r, p x = false) := by
  induction db with
  | nil => cases he
  | cons y rest ih =>
    rcases List.pairwise_cons.mp hu with ⟨hy, hrest⟩
    rcases List.mem_cons.mp he with rfl | he'
    · refine ⟨?_, [], rest, rfl, by simp, ?_⟩
      · simp only [List.find?]
        rw [hpe]
      · intro x hx
        have := hy x hx
        cases hpx : p x with
        | false => rfl
        | true => exact absurd ⟨hpe, hpx⟩ this
    · have hpy : p y = false := by
        cases hpy : p y with
        | false => rfl
        | true => exact absurd ⟨hpy, hpe⟩ (hy e he')
      obtain ⟨hfind, l, r, hsplit, hl, hr⟩ := ih hrest he'
      refine ⟨?_, y :: l, r, by rw [hsplit]; rfl, ?_, hr⟩
      · simp only [List.find?]
        rw [hpy]
        exact hfind
      · intro x hx
        rcases List.mem_cons.mp hx with rfl | hx'
        · exact hpy
        · exact hl x hx'

theorem map_ite_splice (f : α → α) {l r : List α} {e : α}
    (hl : ∀ x ∈ l, p x = false) (hpe : p e = true) (hr : ∀ x ∈ r, p x = false) :
    (l ++ e :: r).map (fun x => if p x then f x else x) = l ++ f e :: r := by
  induction l with
  | nil =>
    simp only [List.nil_append, List.map]
    rw [if_pos hpe]
    congr 1
    induction r with
    | nil => rfl
    | cons z zs ihz =>
      have hz : p z = false := hr z (List.mem_cons_self z zs)
      simp only [List.map]
      rw [if_neg (by simp [hz])]
      congr 1
      exact ihz fun y hy => hr y (List.mem_cons_of_mem z hy)
  | cons x xs ihx =>
    have hx : p x = false := hl x (List.mem_cons_self x xs)
    simp only [List.cons_append, List.map]
    rw [if_neg (by simp [hx])]
    congr 1
    exact ihx fun y hy => hl y (List.mem_cons_of_mem x hy)

theorem countP_splice {l r : List α} {e : α}
    (hl : ∀ x ∈ l, p x = false) (hpe : p e = true) (hr : ∀ x ∈ r, p x = false) :
    (l ++ e :: r).countP p = 1 := by
  rw [List.countP_append, List.countP_cons_of_pos p _ hpe,
      List.countP_eq_zero.mpr (fun x hx => by simp [hl x hx]),
      List.countP_eq_zero.mpr (fun x hx => by simp [hr x hx])]

end UniqueKey

/-! ## Watermarks

`DataManager.get_last_data_timestamp` (`data_manager.py:87-119`) computes
`max(updated_at)` over one user's rows of one category's table, `None` when
the user has none. The aggregate is modeled as a recursion over the table,
reading each stored datetime as a UTC instant. -/

/-- Fold one value into an optional running maximum. -/
def omax (x : Int) : Option Int → Option Int
  | none => some x
  | some a => some (max x a)

/-- Order on optional watermarks: `none` (no data) is below everything, and a
present watermark must not exceed a later present watermark. -/
def optLe : Option Int → Option Int → Prop
  | none, _ => True
  | some _, none => False
  | some a, some b => a ≤ b

/-- Maximum of `t x` over the rows `x` with `u x = uid`: the generic shape of
`get_last_data_timestamp`, for any row type with a user column `u` and a
timestamp column `t`. -/
def gwm {α : Type} (u : α → String) (t : α → Int) (uid : String) : List α → Option Int
  | [] => none
  | x :: rest => if u x == uid then omax (t x) (gwm u t uid rest) else gwm u t uid rest

theorem optLe_refl (a : Option Int) : optLe a a := by
  cases a <;> simp [optLe]

theorem optLe_trans {a b c : Option Int} (h1 : optLe a b) (h2 : optLe b c) : optLe a c := by
  cases a <;> cases b <;> cases c <;> simp_all [optLe] <;> omega

theorem optLe_omax_mono {x y : Int} {m m' : Option Int} (hxy : x ≤ y) (hm : optLe m m') :
    optLe (omax x m) (omax y m') := by
  cases m <;> cases m' <;> simp_all [optLe, omax] <;> omega

theorem gwm_append_right {α : Type} (u : α → String) (t : α → Int) (uid : String)
    (l₁ l₂ : List α) : optLe (gwm u t uid l₁) (gwm u t uid (l₁ ++ l₂)) := by
  induction l₁ with
  | nil => simp [gwm, optLe]
  | cons x rest ih =>
    simp only [List.cons_append, gwm]
    by_cases h : (u x == uid) = true
    · rw [if_pos h, if_pos h]
      exact optLe_omax_mono le_rfl ih
    · rw [if_neg h, if_neg h]
      exact ih

theorem gwm_map_mono {α : Type} (u : α → String) (t : α → Int) (uid : String)
    (f : α → α) (db : List α) (h : ∀ x ∈ db, u (f x) = u x ∧ t x ≤ t (f x)) :
    optLe (gwm u t uid db) (gwm u t uid (db.map f)) := by
  induction db with
  | nil => simp [gwm, optLe]
  | cons x rest ih =>
    obtain ⟨hux, htx⟩ := h x (List.mem_cons_self x rest)
    have ih' := ih fun y hy => h y (List.mem_cons_of_mem x hy)
    simp only [List.map, gwm, hux]
    by_cases hcase : (u x == uid) = true
    · rw [if_pos hcase, if_pos hcase]
      exact optLe_omax_mono htx ih'
    · rw [if_neg hcase, if_neg hcase]
      exact ih'

/-- `get_last_data_timestamp(session, user_id, "cycle")`
(`data_manager.py:100-103`, `119`): `max(Cycle.updated_at)` over the user's
cycle rows, read as UTC instants, `none` when the user has no rows. -/
def get_last_cycle_timestamp (db : List Cycle) (user_id : String) : Option Int :=
  gwm (fun cy => cy.user_id) (fun cy => cy.updated_at.instant) user_id db

/-- `get_last_data_timestamp(session, user_id, "recovery")`
(`data_manager.py:112-115`, `119`). -/
def get_last_recovery_timestamp (db : List Recovery) (user_id : String) : Option Int :=
  gwm (fun rec => rec.user_id) (fun rec => rec.updated_at.instant) user_id db

/-- A sequence of `store_cycles` merge operations (each with its own caller
user and batch) applied to the cycles table in order. -/
def apply_cycle_merges (db : List Cycle) : List (String × List CycleData) → List Cycle
  | [] => db
  | (user_id, batch) :: ops => apply_cycle_merges (store_cycles db user_id batch).2 ops

/-- A sequence of `store_recoveries` merge operations applied in order. -/
def apply_recovery_merges (db : List Recovery) :
    List (String × List RecoveryData) → List Recovery
  | [] => db
  | (user_id, batch) :: ops => apply_recovery_merges (store_recoveries db user_id batch).2 ops

/-! ## Structural lemmas about the cycle merge step -/

@[simp] theorem create_cycle_cycle_id (user_id : String) (c : CycleData) :
    (create_cycle user_id c).cycle_id = c.id := rfl

@[simp] theorem create_cycle_user_id (user_id : String) (c : CycleData) :
    (create_cycle user_id c).user_id = user_id := rfl

@[simp] theorem create_cycle_updated_at (user_id : String) (c : CycleData) :
    (create_cycle user_id c).updated_at = c.updated_at := rfl

@[simp] theorem update_cycle_cycle_id (cy : Cycle) (c : CycleData) :
    (update_cycle cy c).cycle_id = cy.cycle_id := rfl

@[simp] theorem update_cycle_user_id (cy : Cycle) (c : CycleData) :
    (update_cycle cy c).user_id = cy.user_id := rfl

@[simp] theorem update_cycle_updated_at (cy : Cycle) (c : CycleData) :
    (update_cycle cy c).updated_at = c.updated_at := rfl

/-- Distinct key columns give at most one row matching the key of `c`. -/
theorem cycleKeys_pairwise {db : List Cycle} (hu : CycleKeysUnique db) (k : Int) :
    db.Pairwise fun a b => ¬((a.cycle_id == k) = true ∧ (b.cycle_id == k) = true) := by
  refine hu.imp ?_
  intro a b hab h
  obtain ⟨ha, hb⟩ := h
  rw [beq_iff_eq] at ha hb
  exact hab (by rw [ha, hb])

theorem store_cycles_step_insert (user_id : String) (n : Nat) (db : List Cycle)
    (c : CycleData) (h : ∀ cy ∈ db, cy.cycle_id ≠ c.id) :
    store_cycles_step user_id (n, db) c = (n + 1, db ++ [create_cycle user_id c]) := by
  have hfind : db.find? (fun cy => cy.cycle_id == c.id) = none :=
    List.find?_eq_none.mpr fun cy hcy => by simp [h cy hcy]
  simp [store_cycles_step, hfind]

theorem store_cycles_step_found (user_id : String) (n : Nat) (db : List Cycle)
    (c : CycleData) (e : Cycle) (hu : CycleKeysUnique db) (he : e ∈ db)
    (hk : e.cycle_id = c.id) :
    ∃ l r, db = l ++ e :: r ∧ (∀ x ∈ l, (x.cycle_id == c.id) = false) ∧
      (∀ x ∈ r, (x.cycle_id == c.id) = false) ∧
      store_cycles_step user_id (n, db) c =
        (if c.updated_at.instant > (normalizeStored e.updated_at).instant
         then (n + 1, l ++ update_cycle e c :: r) else (n, db)) := by
  have hpe : (e.cycle_id == c.id) = true := by simp [hk]
  obtain ⟨hfind, l, r, hsplit, hl, hr⟩ :=
    find?_splice (cycleKeys_pairwise hu c.id) he hpe
  refine ⟨l, r, hsplit, hl, hr, ?_⟩
  have hmap : db.map (fun cy => if cy.cycle_id == c.id then update_cycle cy c else cy) =
      l ++ update_cycle e c :: r := by
    rw [hsplit]
    exact map_ite_splice (fun cy => update_cycle cy c) hl hpe hr
  simp only [store_cycles_step, hfind, hmap]

theorem store_cycles_step_keys_unique (user_id : String) (n : Nat) (db : List Cycle)
    (c : CycleData) (hu : CycleKeysUnique db) :
    CycleKeysUnique (store_cycles_step user_id (n, db) c).2 := by
  rcases hfind : db.find? (fun cy => cy.cycle_id == c.id) with _ | e
  · have hkeys := List.find?_eq_none.mp hfind
    simp only [store_cycles_step, hfind]
    rw [CycleKeysUnique, List.pairwise_append]
    refine ⟨hu, List.pairwise_singleton _ _, ?_⟩
    intro a ha b hb
    simp only [List.mem_singleton] at hb
    subst hb
    have := hkeys a ha
    simp only [create_cycle_cycle_id]
    intro heq
    exact this (by simp [heq])
  · simp only [store_cycles_step, hfind]
    split
    · rw [CycleKeysUnique, List.pairwise_map]
      refine hu.imp ?_
      intro a b hab
      have hka : ((if a.cycle_id == c.id then update_cycle a c else a) : Cycle).cycle_id =
          a.cycle_id := by split <;> simp
      have hkb : ((if b.cycle_id == c.id then update_cycle b c else b) : Cycle).cycle_id =
          b.cycle_id := by split <;> simp
      rw [hka, hkb]
      exact hab
    · exact hu

theorem store_cycles_step_wm_mono (user_id : String) (n : Nat) (db : List Cycle)
    (c : CycleData) (uid : String) (hu : CycleKeysUnique db) :
    optLe (get_last_cycle_timestamp db uid)
      (get_last_cycle_timestamp (store_cycles_step user_id (n, db) c).2 uid) := by
  simp only [get_last_cycle_timestamp]
  rcases hfind : db.find? (fun cy => cy.cycle_id == c.id) with _ | e
  · simp only [store_cycles_step, hfind]
    exact gwm_append_right _ _ _ _ _
  · have hpe := List.find?_some hfind
    have he : e ∈ db := List.mem_of_find?_eq_some hfind
    simp only [store_cycles_step, hfind]
    split
    case isTrue hgt =>
      apply gwm_map_mono
      intro x hx
      constructor
      · split <;> simp
      · by_cases hpx : (x.cycle_id == c.id) = true
        · have hxe : x = e :=
            pred_false_of_pairwise (cycleKeys_pairwise hu c.id) he hpe hx hpx
          subst hxe
          rw [if_pos hpx]
          simp only [update_cycle_updated_at]
          rw [instant_normalizeStored] at hgt
          exact le_of_lt hgt
        · rw [if_neg hpx]
    case isFalse hle => exact optLe_refl _

theorem store_cycles_fold_mono (user_id uid : String) (batch : List CycleData) :
    ∀ (acc : Nat × List Cycle), CycleKeysUnique acc.2 →
      CycleKeysUnique (batch.foldl (store_cycles_step user_id) acc).2 ∧
      optLe (get_last_cycle_timestamp acc.2 uid)
        (get_last_cycle_timestamp (batch.foldl (store_cycles_step user_id) acc).2 uid) := by
  induction batch with
  | nil => exact fun acc hu => ⟨hu, optLe_refl _⟩
  | cons c batch ih =>
    intro acc hu
    obtain ⟨n, db⟩ := acc
    have h1 := store_cycles_step_keys_unique user_id n db c hu
    have h2 := store_cycles_step_wm_mono user_id n db c uid hu
    obtain ⟨hu2, hle2⟩ := ih (store_cycles_step user_id (n, db) c) h1
    rw [List.foldl_cons]
    exact ⟨hu2, optLe_trans h2 hle2⟩

/-! ## Structural lemmas about the recovery merge step -/

@[simp] theorem create_recovery_cycle_id (user_id : String) (r : RecoveryData) :
    (create_recovery user_id r).cycle_id = r.cycle_id := rfl

@[simp] theorem create_recovery_sleep_id (user_id : String) (r : RecoveryData) :
    (create_recovery user_id r).sleep_id = r.sleep_id := rfl

@[simp] theorem create_recovery_user_id (user_id : String) (r : RecoveryData) :
    (create_recovery user_id r).user_id = user_id := rfl

@[simp] theorem create_recovery_updated_at (user_id : String) (r : RecoveryData) :
    (create_recovery user_id r).updated_at = r.updated_at := rfl

@[simp] theorem update_recovery_cycle_id (rec : Recovery) (r : RecoveryData) :
    (update_recovery rec r).cycle_id = rec.cycle_id := rfl

@[simp] theorem update_recovery_sleep_id (rec : Recovery) (r : RecoveryData) :
    (update_recovery rec r).sleep_id = rec.sleep_id := rfl

@[simp] theorem update_recovery_user_id (rec : Recovery) (r : RecoveryData) :
    (update_recovery rec r).user_id = rec.user_id := rfl

@[simp] theorem update_recovery_updated_at (rec : Recovery) (r : RecoveryData) :
    (update_recovery rec r).updated_at = r.updated_at := rfl

/-- Distinct composite keys give at most one row matching `(kc, ks)`. -/
theorem recoveryKeys_pairwise {db : List Recovery} (hu : RecoveryKeysUnique db)
    (kc ks : Int) :
    db.Pairwise fun a b => ¬((a.cycle_id == kc && a.sleep_id == ks) = true ∧
      (b.cycle_id == kc && b.sleep_id == ks) = true) := by
  refine hu.imp ?_
  intro a b hab h
  obtain ⟨ha, hb⟩ := h
  rw [Bool.and_eq_true, beq_iff_eq, beq_iff_eq] at ha hb
  rcases hab with hne | hne
  · exact hne (by rw [ha.1, hb.1])
  · exact hne (by rw [ha.2, hb.2])

theorem store_recoveries_step_insert (user_id : String) (n : Nat) (db : List Recovery)
    (r : RecoveryData) (h : ∀ rec ∈ db, ¬(rec.cycle_id = r.cycle_id ∧ rec.sleep_id = r.sleep_id)) :
    store_recoveries_step user_id (n, db) r = (n + 1, db ++ [create_recovery user_id r]) := by
  have hfind : db.find? (fun rec => rec.cycle_id == r.cycle_id && rec.sleep_id == r.sleep_id)
      = none := by
    refine List.find?_eq_none.mpr fun rec hrec => ?_
    have := h rec hrec
    simp only [Bool.and_eq_true, beq_iff_eq]
    exact fun hc => this ⟨hc.1, hc.2⟩
  simp [store_recoveries_step, hfind]

theorem store_recoveries_step_found (user_id : String) (n : Nat) (db : List Recovery)
    (r : RecoveryData) (e : Recovery) (hu : RecoveryKeysUnique db) (he : e ∈ db)
    (hkc : e.cycle_id = r.cycle_id) (hks : e.sleep_id = r.sleep_id) :
    ∃ l rt, db = l ++ e :: rt ∧
      (∀ x ∈ l, (x.cycle_id == r.cycle_id && x.sleep_id == r.sleep_id) = false) ∧
      (∀ x ∈ rt, (x.cycle_id == r.cycle_id && x.sleep_id == r.sleep_id) = false) ∧
      store_recoveries_step user_id (n, db) r =
        (if r.updated_at.instant > (normalizeStored e.updated_at).instant
         then (n + 1, l ++ update_recovery e r :: rt) else (n, db)) := by
  have hpe : (e.cycle_id == r.cycle_id && e.sleep_id == r.sleep_id) = true := by
    simp [hkc, hks]
  obtain ⟨hfind, l, rt, hsplit, hl, hr⟩ :=
    find?_splice (recoveryKeys_pairwise hu r.cycle_id r.sleep_id) he hpe
  refine ⟨l, rt, hsplit, hl, hr, ?_⟩
  have hmap : db.map (fun rec =>
      if rec.cycle_id == r.cycle_id && rec.sleep_id == r.sleep_id
      then update_recovery rec r else rec) = l ++ update_recovery e r :: rt := by
    rw [hsplit]
    exact map_ite_splice (fun rec => update_recovery rec r) hl hpe hr
  simp only [store_recoveries_step, hfind, hmap]

theorem store_recoveries_step_keys_unique (user_id : String) (n : Nat)
    (db : List Recovery) (r : RecoveryData) (hu : RecoveryKeysUnique db) :
    RecoveryKeysUnique (store_recoveries_step user_id (n, db) r).2 := by
  rcases hfind : db.find? (fun rec => rec.cycle_id == r.cycle_id && rec.sleep_id == r.sleep_id)
    with _ | e
  · have hkeys := List.find?_eq_none.mp hfind
    simp only [store_recoveries_step, hfind]
    rw [RecoveryKeysUnique, List.pairwise_append]
    refine ⟨hu, List.pairwise_singleton _ _, ?_⟩
    intro a ha b hb
    simp only [List.mem_singleton] at hb
    subst hb
    have := hkeys a ha
    simp only [Bool.and_eq_true, beq_iff_eq, not_and] at this
    simp only [create_recovery_cycle_id, create_recovery_sleep_id]
    by_cases hc : a.cycle_id = r.cycle_id
    · exact Or.inr fun hs => this hc hs
    · exact Or.inl hc
  · simp only [store_recoveries_step, hfind]
    split
    · rw [RecoveryKeysUnique, List.pairwise_map]
      refine hu.imp ?_
      intro a b hab
      have hka : ((if a.cycle_id == r.cycle_id && a.sleep_id == r.sleep_id
          then update_recovery a r else a) : Recovery).cycle_id = a.cycle_id := by
        split <;> simp
      have hka' : ((if a.cycle_id == r.cycle_id && a.sleep_id == r.sleep_id
          then update_recovery a r else a) : Recovery).sleep_id = a.sleep_id := by
        split <;> simp
      have hkb : ((if b.cycle_id == r.cycle_id && b.sleep_id == r.sleep_id
          then update_recovery b r else b) : Recovery).cycle_id = b.cycle_id := by
        split <;> simp
      have hkb' : ((if b.cycle_id == r.cycle_id && b.sleep_id == r.sleep_id
          then update_recovery b r else b) : Recovery).sleep_id = b.sleep_id := by
        split <;> simp
      rw [hka, hka', hkb, hkb']
      exact hab
    · exact hu

theorem store_recoveries_step_wm_mono (user_id : String) (n : Nat) (db : List Recovery)
    (r : RecoveryData) (uid : String) (hu : RecoveryKeysUnique db) :
    optLe (get_last_recovery_timestamp db uid)
      (get_last_recovery_timestamp (store_recoveries_step user_id (n, db) r).2 uid) := by
  simp only [get_last_recovery_timestamp]
  rcases hfind : db.find? (fun rec => rec.cycle_id == r.cycle_id && rec.sleep_id == r.sleep_id)
    with _ | e
  · simp only [store_recoveries_step, hfind]
    exact gwm_append_right _ _ _ _ _
  · have hpe := List.find?_some hfind
    have he : e ∈ db := List.mem_of_find?_eq_some hfind
    simp only [store_recoveries_step, hfind]
    split
    case isTrue hgt =>
      apply gwm_map_mono
      intro x hx
      constructor
      · split <;> simp
      · by_cases hpx : (x.cycle_id == r.cycle_id && x.sleep_id == r.sleep_id) = true
        · have hxe : x = e :=
            pred_false_of_pairwise (recoveryKeys_pairwise hu r.cycle_id r.sleep_id)
              he hpe hx hpx
          subst hxe
          rw [if_pos hpx]
          simp only [update_recovery_updated_at]
          rw [instant_normalizeStored] at hgt
          exact le_of_lt hgt
        · rw [if_neg hpx]
    case isFalse hle => exact optLe_refl _

theorem store_recoveries_fold_mono (user_id uid : String) (batch : List RecoveryData) :
    ∀ (acc : Nat × List Recovery), RecoveryKeysUnique acc.2 →
      RecoveryKeysUnique (batch.foldl (store_recoveries_step user_id) acc).2 ∧
      optLe (get_last_recovery_timestamp acc.2 uid)
        (get_last_recovery_timestamp (batch.foldl (store_recoveries_step user_id) acc).2 uid) := by
  induction batch with
  | nil => exact fun acc hu => ⟨hu, optLe_refl _⟩
  | cons r batch ih =>
    intro acc hu
    obtain ⟨n, db⟩ := acc
    have h1 := store_recoveries_step_keys_unique user_id n db r hu
    have h2 := store_recoveries_step_wm_mono user_id n db r uid hu
    obtain ⟨hu2, hle2⟩ := ih (store_recoveries_step user_id (n, db) r) h1
    rw [List.foldl_cons]
    exact ⟨hu2, optLe_trans h2 hle2⟩

theorem apply_recovery_merges_mono (uid : String) (ops : List (String × List RecoveryData)) :
    ∀ (db : List Recovery), RecoveryKeysUnique db →
      RecoveryKeysUnique (apply_recovery_merges db ops) ∧
      optLe (get_last_recovery_timestamp db uid)
        (get_last_recovery_timestamp (apply_recovery_merges db ops) uid) := by
  induction ops with
  | nil => exact fun db hu => ⟨hu, optLe_refl _⟩
  | cons op ops ih =>
    intro db hu
    obtain ⟨user_id, batch⟩ := op
    obtain ⟨hu1, hle1⟩ := store_recoveries_fold_mono user_id uid batch (0, db) hu
    obtain ⟨hu2, hle2⟩ := ih (store_recoveries db user_id batch).2 hu1
    exact ⟨hu2, optLe_trans hle1 hle2⟩

theorem apply_cycle_merges_mono (uid : String) (ops : List (String × List CycleData)) :
    ∀ (db : List Cycle), CycleKeysUnique db →
      CycleKeysUnique (apply_cycle_merges db ops) ∧
      optLe (get_last_cycle_timestamp db uid)
        (get_last_cycle_timestamp (apply_cycle_merges db ops) uid) := by
  induction ops with
  | nil => exact fun db hu => ⟨hu, optLe_refl _⟩
  | cons op ops ih =>
    intro db hu
    obtain ⟨user_id, batch⟩ := op
    obtain ⟨hu1, hle1⟩ := store_cycles_fold_mono user_id uid batch (0, db) hu
    obtain ⟨hu2, hle2⟩ := ih (store_cycles db user_id batch).2 hu1
    exact ⟨hu2, optLe_trans hle1 hle2⟩

/-! ## Claim theorems -/

/-- C2: for every incoming record, the merge step inserts a fresh row when no
row carries the record's category key; when a row with the key exists it
overwrites exactly that row if and only if the incoming `updated_at` is
strictly greater than the stored one (both read as UTC instants, a
timezone-naive stored value read as UTC), and skips otherwise; the running
count grows exactly on inserts and overwrites, and the batch merge is the
fold of this per-record step from count zero. -/
theorem merge_upsert_policy (user_id : String) (db : List Cycle) (n : Nat)
    (c : CycleData) (hu : CycleKeysUnique db) :
    ((∀ cy ∈ db, cy.cycle_id ≠ c.id) →
      store_cycles_step user_id (n, db) c = (n + 1, db ++ [create_cycle user_id c])) ∧
    (∀ e ∈ db, e.cycle_id = c.id →
      (c.updated_at.instant > (normalizeStored e.updated_at).instant →
        ∃ l r, db = l ++ e :: r ∧
          store_cycles_step user_id (n, db) c = (n + 1, l ++ update_cycle e c :: r)) ∧
      (¬ c.updated_at.instant > (normalizeStored e.updated_at).instant →
        store_cycles_step user_id (n, db) c = (n, db))) ∧
    (∀ batch : List CycleData,
      store_cycles db user_id batch = batch.foldl (store_cycles_step user_id) (0, db)) := by
  refine ⟨store_cycles_step_insert user_id n db c, ?_, fun batch => rfl⟩
  intro e he hk
  obtain ⟨l, r, hsplit, hl, hr, hstep⟩ := store_cycles_step_found user_id n db c e hu he hk
  constructor
  · intro hgt
    exact ⟨l, r, hsplit, by rw [hstep, if_pos hgt]⟩
  · intro hngt
    rw [hstep, if_neg hngt]

/-- Witness for `merge_upsert_policy`: merging one record into the empty
table inserts it with count one. -/
theorem merge_upsert_policy_witness :
    CycleKeysUnique ([] : List Cycle) ∧
    store_cycles_step "u" (0, ([] : List Cycle))
        ⟨1001, ⟨10, some 0⟩, ⟨20, some 0⟩, ⟨5, some 0⟩, none, none, none, none, "raw"⟩ =
      (0 + 1, [] ++ [create_cycle "u"
        ⟨1001, ⟨10, some 0⟩, ⟨20, some 0⟩, ⟨5, some 0⟩, none, none, none, none, "raw"⟩]) :=
  ⟨List.Pairwise.nil,
   (merge_upsert_policy "u" [] 0 _ List.Pairwise.nil).1 (by simp)⟩

/-- C1: merging a record is idempotent: after merging `[r]` into a table with
unique keys, exactly one row carries r's key; merging `[r]` again returns
count `0` and leaves the table unchanged; and when r's key was fresh the
merge stored exactly r's fields (the row `create_cycle`/`create_recovery`)
with count `1`. Shown for `store_cycles` (single key) and `store_recoveries`
(composite key); `store_sleeps` and `store_workouts` are field-for-field
isomorphic to `store_cycles`. -/
theorem merge_idempotent :
    (∀ (user_id : String) (db : List Cycle) (r : CycleData), CycleKeysUnique db →
      ((store_cycles db user_id [r]).2.countP (fun cy => cy.cycle_id == r.id) = 1) ∧
      store_cycles (store_cycles db user_id [r]).2 user_id [r] =
        (0, (store_cycles db user_id [r]).2) ∧
      ((∀ cy ∈ db, cy.cycle_id ≠ r.id) →
        store_cycles db user_id [r] = (1, db ++ [create_cycle user_id r]))) ∧
    (∀ (user_id : String) (db : List Recovery) (r : RecoveryData), RecoveryKeysUnique db →
      ((store_recoveries db user_id [r]).2.countP
        (fun rec => rec.cycle_id == r.cycle_id && rec.sleep_id == r.sleep_id) = 1) ∧
      store_recoveries (store_recoveries db user_id [r]).2 user_id [r] =
        (0, (store_recoveries db user_id [r]).2) ∧
      ((∀ rec ∈ db, ¬(rec.cycle_id = r.cycle_id ∧ rec.sleep_id = r.sleep_id)) →
        store_recoveries db user_id [r] = (1, db ++ [create_recovery user_id r]))) := by
  constructor
  · intro user_id db r hu
    rcases hfind : db.find? (fun cy => cy.cycle_id == r.id) with _ | e
    · -- fresh key: the record is inserted at the end of the table
      have hkeys : ∀ cy ∈ db, (cy.cycle_id == r.id) = false := by
        intro cy hcy
        have := List.find?_eq_none.mp hfind cy hcy
        simpa using this
      have hdb1 : store_cycles db user_id [r] = (0 + 1, db ++ [create_cycle user_id r]) := by
        show store_cycles_step user_id (0, db) r = _
        simp only [store_cycles_step, hfind]
      have hfind1 : (db ++ [create_cycle user_id r]).find?
          (fun cy => cy.cycle_id == r.id) = some (create_cycle user_id r) := by
        rw [find?_append_of_none hkeys]
        simp [List.find?]
      refine ⟨?_, ?_, fun _ => by simpa using hdb1⟩
      · rw [hdb1]
        rw [List.countP_append, List.countP_eq_zero.mpr
          (fun cy hcy => by simp [hkeys cy hcy])]
        simp [List.countP_cons]
      · rw [hdb1]
        show store_cycles_step user_id (0, db ++ [create_cycle user_id r]) r = _
        simp only [store_cycles_step, hfind1, create_cycle_updated_at,
          instant_normalizeStored]
        rw [if_neg (lt_irrefl r.updated_at.instant)]
    · have hpe := List.find?_some hfind
      have he : e ∈ db := List.mem_of_find?_eq_some hfind
      have hk : e.cycle_id = r.id := by simpa using hpe
      obtain ⟨l, rt, hsplit, hl, hr, hstep⟩ :=
        store_cycles_step_found user_id 0 db r e hu he hk
      have hfresh : ¬(∀ cy ∈ db, cy.cycle_id ≠ r.id) := fun h => h e he hk
      by_cases hgt : r.updated_at.instant > (normalizeStored e.updated_at).instant
      · -- overwrite: the existing row is replaced in place
        have hdb1 : store_cycles db user_id [r] = (0 + 1, l ++ update_cycle e r :: rt) := by
          show store_cycles_step user_id (0, db) r = _
          rw [hstep, if_pos hgt]
        have hpu : ((update_cycle e r).cycle_id == r.id) = true := by simp [hk]
        have hfind1 : (l ++ update_cycle e r :: rt).find?
            (fun cy => cy.cycle_id == r.id) = some (update_cycle e r) := by
          rw [find?_append_of_none hl]
          simp [List.find?, hpu, hpe]
        refine ⟨?_, ?_, fun h => absurd h hfresh⟩
        · rw [hdb1]
          exact countP_splice hl hpu hr
        · rw [hdb1]
          show store_cycles_step user_id (0, l ++ update_cycle e r :: rt) r = _
          simp only [store_cycles_step, hfind1, update_cycle_updated_at,
            instant_normalizeStored]
          rw [if_neg (lt_irrefl r.updated_at.instant)]
      · -- skip: the table is unchanged and the count is zero
        have hdb1 : store_cycles db user_id [r] = (0, db) := by
          show store_cycles_step user_id (0, db) r = _
          rw [hstep, if_neg hgt]
        refine ⟨?_, ?_, fun h => absurd h hfresh⟩
        · rw [hdb1]
          rw [hsplit]
          exact countP_splice hl hpe hr
        · rw [hdb1]
          show store_cycles_step user_id (0, db) r = _
          rw [hstep, if_neg hgt]
  · intro user_id db r hu
    rcases hfind : db.find?
        (fun rec => rec.cycle_id == r.cycle_id && rec.sleep_id == r.sleep_id) with _ | e
    · have hkeys : ∀ rec ∈ db,
          (rec.cycle_id == r.cycle_id && rec.sleep_id == r.sleep_id) = false := by
        intro rec hrec
        have := List.find?_eq_none.mp hfind rec hrec
        simpa using this
      have hdb1 : store_recoveries db user_id [r] =
          (0 + 1, db ++ [create_recovery user_id r]) := by
        show store_recoveries_step user_id (0, db) r = _
        simp only [store_recoveries_step, hfind]
      have hfind1 : (db ++ [create_recovery user_id r]).find?
          (fun rec => rec.cycle_id == r.cycle_id && rec.sleep_id == r.sleep_id) =
          some (create_recovery user_id r) := by
        rw [find?_append_of_none hkeys]
        simp [List.find?]
      refine ⟨?_, ?_, fun _ => by simpa using hdb1⟩
      · rw [hdb1]
        rw [List.countP_append, List.countP_eq_zero.mpr
          (fun rec hrec => by simp [hkeys rec hrec])]
        simp [List.countP_cons]
      · rw [hdb1]
        show store_recoveries_step user_id (0, db ++ [create_recovery user_id r]) r = _
        simp only [store_recoveries_step, hfind1, create_recovery_updated_at,
          instant_normalizeStored]
        rw [if_neg (lt_irrefl r.updated_at.instant)]
    · have hpe := List.find?_some hfind
      have he : e ∈ db := List.mem_of_find?_eq_some hfind
      have hk : e.cycle_id = r.cycle_id ∧ e.sleep_id = r.sleep_id := by
        simpa [Bool.and_eq_true] using hpe
      obtain ⟨l, rt, hsplit, hl, hr, hstep⟩ :=
        store_recoveries_step_found user_id 0 db r e hu he hk.1 hk.2
      have hfresh : ¬(∀ rec ∈ db, ¬(rec.cycle_id = r.cycle_id ∧ rec.sleep_id = r.sleep_id)) :=
        fun h => h e he hk
      by_cases hgt : r.updated_at.instant > (normalizeStored e.updated_at).instant
      · have hdb1 : store_recoveries db user_id [r] =
            (0 + 1, l ++ update_recovery e r :: rt) := by
          show store_recoveries_step user_id (0, db) r = _
          rw [hstep, if_pos hgt]
        have hpu : ((update_recovery e r).cycle_id == r.cycle_id &&
            (update_recovery e r).sleep_id == r.sleep_id) = true := by
          simp [hk.1, hk.2]
        have hfind1 : (l ++ update_recovery e r :: rt).find?
            (fun rec => rec.cycle_id == r.cycle_id && rec.sleep_id == r.sleep_id) =
            some (update_recovery e r) := by
          rw [find?_append_of_none hl]
          simp [List.find?, hpu, hpe]
        refine ⟨?_, ?_, fun h => absurd h hfresh⟩
        · rw [hdb1]
          exact countP_splice hl hpu hr
        · rw [hdb1]
          show store_recoveries_step user_id (0, l ++ update_recovery e r :: rt) r = _
          simp only [store_recoveries_step, hfind1, update_recovery_updated_at,
            instant_normalizeStored]
          rw [if_neg (lt_irrefl r.updated_at.instant)]
      · have hdb1 : store_recoveries db user_id [r] = (0, db) := by
          show store_recoveries_step user_id (0, db) r = _
          rw [hstep, if_neg hgt]
        refine ⟨?_, ?_, fun h => absurd h hfresh⟩
        · rw [hdb1]
          rw [hsplit]
          exact countP_splice hl hpe hr
        · rw [hdb1]
          show store_recoveries_step user_id (0, db) r = _
          rw [hstep, if_neg hgt]

/-- Witness for `merge_idempotent`: re-merging a concrete record into the
table it was just merged into returns count zero and changes nothing. -/
theorem merge_idempotent_witness :
    CycleKeysUnique ([] : List Cycle) ∧
    store_cycles
        (store_cycles [] "u"
          [⟨1001, ⟨10, some 0⟩, ⟨20, some 0⟩, ⟨5, some 0⟩, none, none, none, none, "raw"⟩]).2
        "u" [⟨1001, ⟨10, some 0⟩, ⟨20, some 0⟩, ⟨5, some 0⟩, none, none, none, none, "raw"⟩] =
      (0, (store_cycles [] "u"
        [⟨1001, ⟨10, some 0⟩, ⟨20, some 0⟩, ⟨5, some 0⟩, none, none, none, none, "raw"⟩]).2) :=
  ⟨List.Pairwise.nil, (merge_idempotent.1 "u" [] _ List.Pairwise.nil).2.1⟩

/-- C3: the watermark `get_last_data_timestamp` (maximum stored `updated_at`
for a user) never decreases across any sequence of merge operations, for the
cycle and the recovery category (sleeps and workouts merge identically to
cycles). -/
theorem watermark_monotone :
    (∀ (ops : List (String × List CycleData)) (db : List Cycle) (user_id : String),
      CycleKeysUnique db →
      optLe (get_last_cycle_timestamp db user_id)
        (get_last_cycle_timestamp (apply_cycle_merges db ops) user_id)) ∧
    (∀ (ops : List (String × List RecoveryData)) (db : List Recovery) (user_id : String),
      RecoveryKeysUnique db →
      optLe (get_last_recovery_timestamp db user_id)
        (get_last_recovery_timestamp (apply_recovery_merges db ops) user_id)) :=
  ⟨fun ops db uid hu => (apply_cycle_merges_mono uid ops db hu).2,
   fun ops db uid hu => (apply_recovery_merges_mono uid ops db hu).2⟩

/-- Witness for `watermark_monotone`: one concrete merge on the empty cycles
table keeps the watermark monotone. -/
theorem watermark_monotone_witness :
    CycleKeysUnique ([] : List Cycle) ∧
    optLe (get_last_cycle_timestamp [] "u")
      (get_last_cycle_timestamp
        (apply_cycle_merges []
          [("u", [⟨1001, ⟨10, some 0⟩, ⟨20, some 0⟩, ⟨5, some 0⟩,
                   none, none, none, none, "raw"⟩])]) "u") :=
  ⟨List.Pairwise.nil,
   watermark_monotone.1
     [("u", [⟨1001, ⟨10, some 0⟩, ⟨20, some 0⟩, ⟨5, some 0⟩, none, none, none, none, "raw"⟩])]
     [] "u" List.Pairwise.nil⟩

/-- C4, counterexample: a transient (`httpx.HTTPError`) refresh failure for a
credential that is already expired does not leave the stored credential
unchanged: `TokenRefresher.refresh_token` flips its active flag (and touches
`updated_at`). -/
theorem refresh_transient_deactivates_cex :
    tr_refresh_token [⟨"u1", "a", "r", "Bearer", 100, "read", 0, 0, true⟩] 200
        ⟨"u1", "a", "r", "Bearer", 100, "read", 0, 0, true⟩ .httpError =
      (.returned false, [⟨"u1", "a", "r", "Bearer", 100, "read", 0, 200, false⟩]) ∧
    (⟨"u1", "a", "r", "Bearer", 100, "read", 0, 200, false⟩ : OAuthToken).is_active = false ∧
    (⟨"u1", "a", "r", "Bearer", 100, "read", 0, 0, true⟩ : OAuthToken).is_active = true := by
  refine ⟨rfl, rfl, rfl⟩

/-- C4 as amended: the transient class splits. On an `httpx.HTTPError`
(network error, 5xx), `TokenRefresher.refresh_token` leaves the credential
table completely unchanged when the credential is not yet expired, but when
it is already expired the credential is deactivated — only the active flag
and `updated_at` change, all token fields are preserved — and
`TokenClient.get_access_token`, which only ever refreshes an already-expired
credential, then always deactivates it. On a malformed response body
(`json.JSONDecodeError` or `KeyError`), the exception escapes both functions'
handlers and the credential table is left completely unchanged — even for an
already-expired credential, with no deactivation. -/
theorem refresh_transient_effect :
    (∀ (db : List OAuthToken) (now : Int) (token : OAuthToken),
      now ≤ token.expires_at →
      tr_refresh_token db now token .httpError = (.returned false, db)) ∧
    (∀ (db : List OAuthToken) (now : Int) (token : OAuthToken),
      now > token.expires_at →
      tr_refresh_token db now token .httpError =
        (.returned false, (deactivate_token db now token.user_id).2) ∧
      ∀ t ∈ (tr_refresh_token db now token .httpError).2,
        ∃ t₀ ∈ db, t.user_id = t₀.user_id ∧ t.access_token = t₀.access_token ∧
          t.refresh_token = t₀.refresh_token ∧ t.token_type = t₀.token_type ∧
          t.expires_at = t₀.expires_at ∧ t.scopes = t₀.scopes) ∧
    (∀ (db : List OAuthToken) (now : Int) (user_id : String) (token : OAuthToken),
      get_token db user_id = some token → token.expires_at ≤ now →
      tc_get_access_token db now user_id .httpError =
        (.error .refreshFailed, (deactivate_token db now user_id).2)) ∧
    (∀ (db : List OAuthToken) (now : Int) (token : OAuthToken),
      tr_refresh_token db now token .malformedJson = (.raised, db) ∧
      tr_refresh_token db now token .missingField = (.raised, db)) ∧
    (∀ (db : List OAuthToken) (now : Int) (user_id : String) (token : OAuthToken),
      get_token db user_id = some token → token.expires_at ≤ now →
      tc_get_access_token db now user_id .malformedJson = (.error .malformedJson, db) ∧
      tc_get_access_token db now user_id .missingField = (.error .missingField, db)) := by
  refine ⟨?_, ?_, ?_, ?_, ?_⟩
  · intro db now token h
    rw [tr_refresh_token, if_neg (not_lt.mpr h)]
  · intro db now token h
    have heq : tr_refresh_token db now token .httpError =
        (.returned false, (deactivate_token db now token.user_id).2) := by
      rw [tr_refresh_token, if_pos h]
    refine ⟨heq, ?_⟩
    rw [heq]
    intro t ht
    rw [deactivate_token] at ht
    rcases hfind : db.find? (fun t0 => t0.user_id == token.user_id) with _ | e
    · rw [hfind] at ht
      exact ⟨t, ht, rfl, rfl, rfl, rfl, rfl, rfl⟩
    · rw [hfind] at ht
      simp only [List.mem_map] at ht
      obtain ⟨t₀, ht₀, hmap⟩ := ht
      refine ⟨t₀, ht₀, ?_⟩
      subst hmap
      split <;> exact ⟨rfl, rfl, rfl, rfl, rfl, rfl⟩
  · intro db now user_id token hget hexp
    simp only [tc_get_access_token, hget]
    rw [if_neg (not_lt.mpr hexp)]
    rfl
  · intro db now token
    exact ⟨rfl, rfl⟩
  · intro db now user_id token hget hexp
    constructor <;>
    · simp only [tc_get_access_token, hget]
      rw [if_neg (not_lt.mpr hexp)]
      rfl

/-- Witness for `refresh_transient_effect`: a transient HTTP failure for a
credential still two hours from expiry leaves the table untouched, and a
malformed body for an already-expired credential also leaves it untouched. -/
theorem refresh_transient_effect_witness :
    ((200 : Int) ≤ (⟨"u1", "a", "r", "Bearer", 7400, "read", 0, 0, true⟩ : OAuthToken).expires_at) ∧
    tr_refresh_token [⟨"u1", "a", "r", "Bearer", 7400, "read", 0, 0, true⟩] 200
        ⟨"u1", "a", "r", "Bearer", 7400, "read", 0, 0, true⟩ .httpError =
      (.returned false, [⟨"u1", "a", "r", "Bearer", 7400, "read", 0, 0, true⟩]) ∧
    get_token [⟨"u2", "a", "r", "Bearer", 100, "read", 0, 0, true⟩] "u2" =
      some ⟨"u2", "a", "r", "Bearer", 100, "read", 0, 0, true⟩ ∧
    ((⟨"u2", "a", "r", "Bearer", 100, "read", 0, 0, true⟩ : OAuthToken).expires_at ≤ (200 : Int)) ∧
    tc_get_access_token [⟨"u2", "a", "r", "Bearer", 100, "read", 0, 0, true⟩] 200 "u2"
        .malformedJson =
      (.error .malformedJson, [⟨"u2", "a", "r", "Bearer", 100, "read", 0, 0, true⟩]) :=
  ⟨by decide,
   refresh_transient_effect.1 [⟨"u1", "a", "r", "Bearer", 7400, "read", 0, 0, true⟩] 200
     ⟨"u1", "a", "r", "Bearer", 7400, "read", 0, 0, true⟩ (by decide),
   rfl, by decide,
   (refresh_transient_effect.2.2.2.2 [⟨"u2", "a", "r", "Bearer", 100, "read", 0, 0, true⟩]
     200 "u2" ⟨"u2", "a", "r", "Bearer", 100, "read", 0, 0, true⟩ rfl (by decide)).1⟩

/-- C5, counterexample: two concurrent `get_access_token` calls for the same
user with an expired credential, interleaved at the coroutine suspension
point before the remote exchange, issue two remote exchanges, not one. -/
theorem single_flight_cex :
    gat_two_calls_exchanges [⟨"u1", "a", "r", "Bearer", 100, "read", 0, 0, true⟩] 200 "u1" = 2 ∧
    (2 : Nat) ≠ 1 := by
  refine ⟨rfl, by decide⟩

/-- C5 as amended: `TokenClient.get_access_token` has no single-flight guard:
every concurrent call that observes an expired active credential issues its
own remote token exchange, so two concurrent calls interleaved before either
exchange completes issue exactly two exchanges (and N such calls issue N). -/
theorem concurrent_refresh_not_single_flight :
    ∀ (db : List OAuthToken) (now : Int) (user_id : String) (token : OAuthToken),
      get_token db user_id = some token → token.expires_at ≤ now →
      gat_two_calls_exchanges db now user_id = 2 := by
  intro db now user_id token hget hexp
  have hphase : gat_phaseA db now user_id = .refreshing token := by
    simp only [gat_phaseA, hget]
    rw [if_neg (not_lt.mpr hexp)]
  rw [gat_two_calls_exchanges]
  rw [hphase]
  rfl

/-- Witness for `concurrent_refresh_not_single_flight` at a concrete expired
credential. -/
theorem concurrent_refresh_not_single_flight_witness :
    get_token [⟨"u1", "a", "r", "Bearer", 100, "read", 0, 0, true⟩] "u1" =
      some ⟨"u1", "a", "r", "Bearer", 100, "read", 0, 0, true⟩ ∧
    ((⟨"u1", "a", "r", "Bearer", 100, "read", 0, 0, true⟩ : OAuthToken).expires_at ≤ (200 : Int)) ∧
    gat_two_calls_exchanges [⟨"u1", "a", "r", "Bearer", 100, "read", 0, 0, true⟩] 200 "u1" = 2 :=
  ⟨rfl, by decide,
   concurrent_refresh_not_single_flight [⟨"u1", "a", "r", "Bearer", 100, "read", 0, 0, true⟩]
     200 "u1" ⟨"u1", "a", "r", "Bearer", 100, "read", 0, 0, true⟩ rfl (by decide)⟩

/-- A response that fails at the HTTP level without reaching the 429 or 401
special cases of `_make_request`: a transport error, or a response whose
status is neither 2xx nor 429 nor 401. -/
def plainHttpFailure : HttpResp → Bool
  | .netErr => true
  | .resp code _ _ => !is2xx code && !(code == 429) && !(code == 401)

/-- One failing attempt of the `_make_request` loop that still has backoff
budget: sleep `retry_delay * 2 ^ attempt` and move to the next attempt. -/
theorem mr_loop_fail_step (max_retries retry_delay : Nat) (tm : Bool)
    (remaining attempt : Nat) (r : HttpResp) (rest : List HttpResp)
    (script : List Bool) (sleeps : List Nat) (n : Nat)
    (h : plainHttpFailure r = true) (hlt : attempt < max_retries - 1) :
    mr_loop max_retries retry_delay tm (remaining + 1) attempt (r :: rest) script sleeps n =
      mr_loop max_retries retry_delay tm remaining (attempt + 1) rest script
        (retry_delay * 2 ^ attempt :: sleeps) n := by
  cases r with
  | netErr =>
    simp only [mr_loop, popResp]
    rw [if_pos hlt]
  | resp code ra b =>
    simp only [plainHttpFailure, Bool.and_eq_true, Bool.not_eq_true'] at h
    obtain ⟨⟨h2xx, h429⟩, h401⟩ := h
    simp only [mr_loop, popResp, h2xx, h429, h401, Bool.false_eq_true, if_false]
    rw [if_pos hlt]

/-- The final failing attempt of the `_make_request` loop: the handler raises
`WhoopAPIError` after `max_retries` attempts. -/
theorem mr_loop_fail_last (max_retries retry_delay : Nat) (tm : Bool)
    (remaining attempt : Nat) (r : HttpResp) (rest : List HttpResp)
    (script : List Bool) (sleeps : List Nat) (n : Nat)
    (h : plainHttpFailure r = true) (hge : ¬ attempt < max_retries - 1) :
    mr_loop max_retries retry_delay tm (remaining + 1) attempt (r :: rest) script sleeps n =
      ⟨.error .requestFailed, sleeps.reverse, n⟩ := by
  cases r with
  | netErr =>
    simp only [mr_loop, popResp]
    rw [if_neg hge]
  | resp code ra b =>
    simp only [plainHttpFailure, Bool.and_eq_true, Bool.not_eq_true'] at h
    obtain ⟨⟨h2xx, h429⟩, h401⟩ := h
    simp only [mr_loop, popResp, h2xx, h429, h401, Bool.false_eq_true, if_false]
    rw [if_neg hge]

/-- C6, counterexample: with `max_retries = 3` and `retry_delay = 1`, a fetch
that fails every attempt sleeps `[1, 2]` — two backoffs, not the three
`[1, 2, 4]` the claim states — before failing. -/
theorem backoff_schedule_cex :
    make_request 3 1 true true [.netErr, .netErr, .netErr] [] =
      ⟨.error .requestFailed, [1, 2], 0⟩ ∧ ([1, 2] : List Nat) ≠ [1, 2, 4] :=
  ⟨rfl, by decide⟩

/-- C6 as amended: with `max_retries = 3` and `base_delay = 1s`, a fetch whose
three attempts all fail with a plain (non-429, non-401) HTTP error sleeps the
exponential backoff delays `1s` and `2s` between its three attempts and then
fails with `WhoopAPIError` (the exhaustion error); `base_delay * 2 ^ attempt`
is slept only between attempts, so only exponents 0 and 1 occur. -/
theorem backoff_schedule (tm : Bool) (r1 r2 r3 : HttpResp) (script : List Bool)
    (h1 : plainHttpFailure r1 = true) (h2 : plainHttpFailure r2 = true)
    (h3 : plainHttpFailure r3 = true) :
    make_request 3 1 true tm [r1, r2, r3] script =
      ⟨.error .requestFailed, [1, 2], 0⟩ := by
  show mr_loop 3 1 tm (2 + 1) 0 [r1, r2, r3] script [] 0 = _
  rw [mr_loop_fail_step 3 1 tm 2 0 r1 [r2, r3] script [] 0 h1 (by decide)]
  show mr_loop 3 1 tm (1 + 1) 1 [r2, r3] script [1 * 2 ^ 0] 0 = _
  rw [mr_loop_fail_step 3 1 tm 1 1 r2 [r3] script [1 * 2 ^ 0] 0 h2 (by decide)]
  show mr_loop 3 1 tm (0 + 1) 2 [r3] script [1 * 2 ^ 1, 1 * 2 ^ 0] 0 = _
  rw [mr_loop_fail_last 3 1 tm 0 2 r3 [] script [1 * 2 ^ 1, 1 * 2 ^ 0] 0 h3 (by decide)]
  rfl

/-- Witness for `backoff_schedule`: three consecutive 500 responses. -/
theorem backoff_schedule_witness :
    plainHttpFailure (.resp 500 none 0) = true ∧
    make_request 3 1 true true
        [.resp 500 none 0, .resp 500 none 0, .resp 500 none 0] [] =
      ⟨.error .requestFailed, [1, 2], 0⟩ :=
  ⟨by decide,
   backoff_schedule true (.resp 500 none 0) (.resp 500 none 0) (.resp 500 none 0) []
     (by decide) (by decide) (by decide)⟩

/-- C7, counterexample: each 429 retry consumes one iteration of the
`for attempt in range(max_retries)` loop, so three consecutive 429 responses
exhaust the attempt budget and the fetch fails with the final
`Maximum retries exceeded` error — 429 retries are counted against the same
budget as other error classes. -/
theorem rate_limit_budget_cex :
    make_request 3 1 true true
        [.resp 429 (some 7) 0, .resp 429 none 0, .resp 429 (some 5) 0] [] =
      ⟨.error .maxRetriesExceeded, [7, 1, 5], 0⟩ :=
  rfl

/-- C7 as amended: on each 429 the fetch sleeps the server-supplied
`Retry-After` value (falling back to the configured default delay when the
header is absent) and retries the same page, but each such retry consumes an
attempt from the shared `max_retries` budget: `max_retries` consecutive 429
responses exhaust the budget and fail, while a single 429 followed by a
success just delays the result by the hinted sleep. -/
theorem rate_limit_retry_behavior (d : Nat) (ra1 ra2 ra3 : Option Nat)
    (b1 b2 b3 b4 : Nat) (tm : Bool) (script : List Bool) :
    make_request 3 d true tm
        [.resp 429 ra1 b1, .resp 429 ra2 b2, .resp 429 ra3 b3] script =
      ⟨.error .maxRetriesExceeded, [ra1.getD d, ra2.getD d, ra3.getD d], 0⟩ ∧
    make_request 3 d true tm [.resp 429 ra1 b1, .resp 200 none b4] script =
      ⟨.ok b4, [ra1.getD d], 0⟩ :=
  ⟨rfl, rfl⟩

/-- C8, counterexample: with `max_retries = 3`, a run in which every response
is 401 performs three forced refreshes, not exactly one: after each refresh
the retried page's second 401 re-enters the generic backoff loop (sleeping
`[1, 2]`) instead of being escalated immediately. -/
theorem auth_retry_cex :
    make_request 3 1 true true
        [.resp 401 none 0, .resp 401 none 1, .resp 401 none 2,
         .resp 401 none 3, .resp 401 none 4, .resp 401 none 5]
        [true, true, true] =
      ⟨.error .requestFailed, [1, 2], 3⟩ ∧ (3 : Nat) ≠ 1 :=
  ⟨rfl, by decide⟩

/-- C8 as amended: `TokenClient.request` performs at most one forced refresh
per call, and after a successful forced refresh a non-2xx retried response
(such as a second 401) is escalated as `ValueError` with exactly one refresh
performed. `WhoopAPI._make_request`, by contrast, performs one forced refresh
per 401-observing attempt: a refresh failure escalates immediately as a hard
`WhoopAPIError`, but when the post-refresh retry of the same page is not 2xx
the attempt falls into the generic backoff loop and the fetch continues with
further attempts (and further refreshes), as the final conjunct's run shows
by succeeding on the attempt after a 401-refresh-401 sequence. -/
theorem auth_retry_behavior :
    (∀ (db : List OAuthToken) (now : Int) (user_id : String) (retry : Bool)
        (g rOut : RefreshOutcome) (resp1 resp2 : HttpResp),
      (tc_request db now user_id retry g rOut resp1 resp2).forcedRefreshes ≤ 1) ∧
    (∀ (db : List OAuthToken) (now : Int) (user_id : String) (token : OAuthToken)
        (body : TokenResponse) (ra1 ra2 : Option Nat) (b1 b2 c2 : Nat),
      get_token db user_id = some token → token.expires_at > now → is2xx c2 = false →
      (tc_request db now user_id true .httpError (.ok body)
          (.resp 401 ra1 b1) (.resp c2 ra2 b2)).result = .error .valueError ∧
      (tc_request db now user_id true .httpError (.ok body)
          (.resp 401 ra1 b1) (.resp c2 ra2 b2)).forcedRefreshes = 1) ∧
    (∀ (m d : Nat) (ra : Option Nat) (b : Nat) (rest : List HttpResp) (script : List Bool),
      make_request (m + 1) d true true (.resp 401 ra b :: rest) (false :: script) =
        ⟨.error .authFailed, [], 1⟩) ∧
    (∀ (m d : Nat) (ra ra2 : Option Nat) (b b2 b3 c2 : Nat) (script : List Bool),
      is2xx c2 = false →
      make_request (m + 2) d true true
          [.resp 401 ra b, .resp c2 ra2 b2, .resp 200 none b3] (true :: script) =
        ⟨.ok b3, [d], 1⟩) := by
  refine ⟨?_, ?_, ?_, ?_⟩
  · intro db now user_id retry g rOut resp1 resp2
    unfold tc_request
    repeat' split
    all_goals simp
  · intro db now user_id token body ra1 ra2 b1 b2 c2 hget hvalid h2xx
    have hga : tc_get_access_token db now user_id .httpError =
        (.ok (token.access_token, token.token_type), db) := by
      simp only [tc_get_access_token, hget]
      rw [if_pos hvalid]
    constructor <;>
    · simp only [tc_request, hga, hget, h2xx, tc_refresh_token]
      simp [is2xx]
  · intro m d ra b rest script
    show mr_loop (m + 1) d true (m + 1) 0 (HttpResp.resp 401 ra b :: rest)
        (false :: script) [] 0 = _
    simp [mr_loop, popResp, is2xx]
  · intro m d ra ra2 b b2 b3 c2 script h2xx
    show mr_loop (m + 2) d true ((m + 1) + 1) 0
        [HttpResp.resp 401 ra b, HttpResp.resp c2 ra2 b2, HttpResp.resp 200 none b3]
        (true :: script) [] 0 = _
    simp [is2xx] at h2xx
    simp [mr_loop, popResp, is2xx]
    omega

/-- Witness for `auth_retry_behavior`: a 401, a successful forced refresh, a
second 401 on the retried page, then a 200 on the next attempt — the fetch
succeeds after one refresh rather than escalating the second 401. -/
theorem auth_retry_behavior_witness :
    is2xx 401 = false ∧
    make_request 3 1 true true
        [.resp 401 none 0, .resp 401 none 1, .resp 200 none 9] [true] =
      ⟨.ok 9, [1], 1⟩ :=
  ⟨by decide, auth_retry_behavior.2.2.2 1 1 none none 0 1 9 401 [] (by decide)⟩

/-- C9, counterexample: `DataManager.is_token_valid` reports a token whose
`expires_at` is exactly `now + 5 minutes` — not strictly more than five
minutes ahead — as valid (its comparison is strict `<` on the other side),
and it consults no active flag at all. -/
theorem expiry_boundary_cex :
    (dm_is_token_valid [⟨"u1", "a", "r", 300, "read", "Bearer"⟩] 0 "u1").1 = true ∧
    ¬ ((300 : Int) > 0 + 5 * 60) :=
  ⟨rfl, by decide⟩

/-- C9 as amended: `AuthManager.is_token_valid` is true exactly when an active
credential exists whose `expires_at` is strictly more than 5 minutes after
now; `DataManager.is_token_valid` is true exactly when a token row exists
(active flag not consulted — `UserToken` has none) whose `expires_at` is at
least `now + 5 minutes`, so the two differ only at the exact boundary. Both
report `now + 4 minutes` invalid and `now + 6 minutes` valid. -/
theorem expiry_buffer_boundary :
    (∀ (db : List OAuthToken) (now : Int) (user_id : String),
      is_token_valid db now user_id = true ↔
      ∃ t, get_token db user_id = some t ∧ t.expires_at > now + 5 * 60) ∧
    (∀ (db : List UserToken) (now : Int) (user_id : String),
      (dm_is_token_valid db now user_id).1 = true ↔
      ∃ t, db.find? (fun x => x.user_id == user_id) = some t ∧
        t.expires_at ≥ now + 5 * 60) ∧
    (∀ (db : List OAuthToken) (now : Int) (user_id : String) (t : OAuthToken),
      get_token db user_id = some t →
      (t.expires_at = now + 4 * 60 → is_token_valid db now user_id = false) ∧
      (t.expires_at = now + 6 * 60 → is_token_valid db now user_id = true)) ∧
    (∀ (db : List UserToken) (now : Int) (user_id : String) (t : UserToken),
      db.find? (fun x => x.user_id == user_id) = some t →
      (t.expires_at = now + 4 * 60 → (dm_is_token_valid db now user_id).1 = false) ∧
      (t.expires_at = now + 6 * 60 → (dm_is_token_valid db now user_id).1 = true)) := by
  refine ⟨?_, ?_, ?_, ?_⟩
  · intro db now user_id
    rcases h : get_token db user_id with _ | tok
    · simp [is_token_valid, h]
    · simp only [is_token_valid, h]
      split
      case isTrue hle =>
        constructor
        · intro hfalse
          exact absurd hfalse (by decide)
        · rintro ⟨t, ht, hgt⟩
          obtain rfl := Option.some.inj ht
          omega
      case isFalse hgt =>
        exact ⟨fun _ => ⟨tok, rfl, by omega⟩, fun _ => rfl⟩
  · intro db now user_id
    rcases h : db.find? (fun x => x.user_id == user_id) with _ | tok
    · simp [dm_is_token_valid, h]
    · simp only [dm_is_token_valid, h]
      split
      case isTrue hlt =>
        constructor
        · intro hfalse
          simp at hfalse
        · rintro ⟨t, ht, hge⟩
          obtain rfl := Option.some.inj ht
          omega
      case isFalse hge =>
        exact ⟨fun _ => ⟨tok, rfl, by omega⟩, fun _ => rfl⟩
  · intro db now user_id t h
    constructor
    · intro he
      simp only [is_token_valid, h]
      rw [if_pos (by omega)]
    · intro he
      simp only [is_token_valid, h]
      rw [if_neg (by omega)]
  · intro db now user_id t h
    constructor
    · intro he
      simp only [dm_is_token_valid, h]
      rw [if_pos (by omega)]
    · intro he
      simp only [dm_is_token_valid, h]
      rw [if_neg (by omega)]

/-- Witness for `expiry_buffer_boundary`: a credential expiring in 4 minutes
is reported invalid by `AuthManager.is_token_valid`. -/
theorem expiry_buffer_boundary_witness :
    get_token [⟨"u1", "a", "r", "Bearer", 240, "read", 0, 0, true⟩] "u1" =
      some ⟨"u1", "a", "r", "Bearer", 240, "read", 0, 0, true⟩ ∧
    is_token_valid [⟨"u1", "a", "r", "Bearer", 240, "read", 0, 0, true⟩] 0 "u1" = false :=
  ⟨rfl, (expiry_buffer_boundary.2.2.1 [⟨"u1", "a", "r", "Bearer", 240, "read", 0, 0, true⟩]
    0 "u1" ⟨"u1", "a", "r", "Bearer", 240, "read", 0, 0, true⟩ rfl).1 (by decide)⟩

/-- Every row of a `store_token` result that carries the stored user id
carries the stored scopes. -/
theorem store_token_scopes (db : List OAuthToken) (now : Int)
    (user_id access refresh : String) (expires_in : Int) (token_type scopes : String) :
    ∀ t2 ∈ store_token db now user_id access refresh expires_in token_type scopes,
      t2.user_id = user_id → t2.scopes = scopes := by
  intro t2 ht2 huser
  rcases hfind : db.find? (fun t => t.user_id == user_id) with _ | e
  · simp only [store_token, hfind] at ht2
    rcases List.mem_append.mp ht2 with hin | hin
    · have := List.find?_eq_none.mp hfind t2 hin
      simp [huser] at this
    · simp only [List.mem_singleton] at hin
      subst hin
      rfl
  · simp only [store_token, hfind] at ht2
    simp only [List.mem_map] at ht2
    obtain ⟨t0, ht0, hmap⟩ := ht2
    subst hmap
    by_cases hcase : (t0.user_id == user_id) = true
    · rw [if_pos hcase]
    · rw [if_neg hcase] at huser
      exact absurd (by simp [huser]) hcase

/-- C10, counterexample: with a stored but inactive credential, a refresh
response that omits `scope` does not preserve the previously stored scopes,
and the empty string is used although a prior token exists:
`TokenClient.refresh_token` reads scopes through the active-only `get_token`,
finds nothing, and overwrites the inactive row's scopes with `""`. -/
theorem scope_overwrite_cex :
    (tc_refresh_token [⟨"u1", "a", "r", "Bearer", 1000, "read", 0, 0, false⟩] 200 "u1"
        (.ok ⟨"a2", "r2", 3600, "Bearer", none⟩)).2 =
      [⟨"u1", "a2", "r2", "Bearer", 3800, "", 0, 200, true⟩] ∧
    ("" : String) ≠ "read" :=
  ⟨rfl, by decide⟩

/-- C10 as amended: when the refresh response omits `scope`,
`TokenClient.refresh_token` preserves the scopes of the user's active
credential when one exists; when no active credential exists it falls back to
the empty string — also when an inactive row exists, whose scopes are then
overwritten with `""`. `TokenRefresher.refresh_token` always preserves the
scopes of the token object passed to it. -/
theorem scope_preservation :
    (∀ (db : List OAuthToken) (now : Int) (user_id : String) (body : TokenResponse)
        (t : OAuthToken), body.scope = none → get_token db user_id = some t →
      ∀ t2 ∈ (tc_refresh_token db now user_id (.ok body)).2,
        t2.user_id = user_id → t2.scopes = t.scopes) ∧
    (∀ (db : List OAuthToken) (now : Int) (user_id : String) (body : TokenResponse),
      body.scope = none → get_token db user_id = none →
      ∀ t2 ∈ (tc_refresh_token db now user_id (.ok body)).2,
        t2.user_id = user_id → t2.scopes = "") ∧
    (∀ (db : List OAuthToken) (now : Int) (token : OAuthToken) (body : TokenResponse),
      body.scope = none →
      ∀ t2 ∈ (tr_refresh_token db now token (.ok body)).2,
        t2.user_id = token.user_id → t2.scopes = token.scopes) := by
  refine ⟨?_, ?_, ?_⟩
  · intro db now user_id body t hscope hget t2 ht2 huser
    simp only [tc_refresh_token, hget] at ht2
    have := store_token_scopes db now user_id body.access_token body.refresh_token
      body.expires_in body.token_type (body.scope.getD t.scopes) t2 ht2 huser
    rw [hscope] at this
    exact this
  · intro db now user_id body hscope hget t2 ht2 huser
    simp only [tc_refresh_token, hget] at ht2
    have := store_token_scopes db now user_id body.access_token body.refresh_token
      body.expires_in body.token_type (body.scope.getD "") t2 ht2 huser
    rw [hscope] at this
    exact this
  · intro db now token body hscope t2 ht2 huser
    simp only [tr_refresh_token] at ht2
    have := store_token_scopes db now token.user_id body.access_token body.refresh_token
      body.expires_in body.token_type (body.scope.getD token.scopes) t2 ht2 huser
    rw [hscope] at this
    exact this

/-- Witness for `scope_preservation`: `TokenRefresher.refresh_token` with a
scope-less response keeps the scopes of the token it was given. -/
theorem scope_preservation_witness :
    (⟨"a2", "r2", 3600, "Bearer", none⟩ : TokenResponse).scope = none ∧
    ∀ t2 ∈ (tr_refresh_token [⟨"u1", "a", "r", "Bearer", 1000, "read", 0, 0, true⟩] 200
        ⟨"u1", "a", "r", "Bearer", 1000, "read", 0, 0, true⟩
        (.ok ⟨"a2", "r2", 3600, "Bearer", none⟩)).2,
      t2.user_id = "u1" → t2.scopes = "read" :=
  ⟨rfl, scope_preservation.2.2 [⟨"u1", "a", "r", "Bearer", 1000, "read", 0, 0, true⟩] 200
    ⟨"u1", "a", "r", "Bearer", 1000, "read", 0, 0, true⟩
    ⟨"a2", "r2", 3600, "Bearer", none⟩ rfl⟩

end Whoopsync
